import Mathlib

/-!
Verification of the `scheduleLib` weekly event store
(`src/scheduleLib/__init__.py`, class `Schedule`).

The Python class is shallowly embedded: the mutable object becomes a
`Schedule` record threaded explicitly through each operation, and an
operation that can raise returns the (possibly partially mutated) state
paired with `Except PyErr α`, matching Python semantics where mutations
performed before a raise persist.  External collaborators are injected:
the clock (`datetime.now`) becomes an explicit `now` argument, the random
source (`random.randint`) becomes a stream `draws : Nat → Int`, the
regex engine (`re.search`) becomes a predicate parameter, and the `json`
standard library is modelled at the parse-tree level (see `JsonTimings`).
-/

/-- Errors a `Schedule` method can raise.  `valueError` covers both the
invalid-mode check in `add` and `list.index` failure in `remove`;
`jsonDecodeError` is `json.JSONDecodeError`; `indexError`/`typeError`
arise from subscripting the parsed JSON value in `importTimings`. -/
inductive PyErr where
  | valueError
  | indexError
  | typeError
  | jsonDecodeError
deriving DecidableEq

/-- `text.replace("\\", "\\\\")` from `encodeSafeEventDSC` (line 24):
every backslash is doubled.  A one-character pattern makes `str.replace`
a per-character expansion. -/
def encodeBackslashes : List Char → List Char
  | [] => []
  | c :: rest =>
    (if c = '\\' then ['\\', '\\'] else [c]) ++ encodeBackslashes rest

/-- `text.replace(":", "\\?")` from `encodeSafeEventDSC` (line 26):
every colon becomes backslash-questionmark. -/
def encodeColons : List Char → List Char
  | [] => []
  | c :: rest =>
    (if c = ':' then ['\\', '?'] else [c]) ++ encodeColons rest

/-- `"\\?" in text`: substring test for a backslash immediately followed
by a question mark. -/
def containsEscSeq : List Char → Bool
  | [] => false
  | [_] => false
  | c :: d :: rest =>
    if c = '\\' ∧ d = '?' then true else containsEscSeq (d :: rest)

/-- `text.replace("\\?", ":")` from `decodeSafeEventDSC` (line 33):
leftmost non-overlapping occurrences of backslash-questionmark become a
colon, matching Python `str.replace` for a two-character pattern. -/
def decodeEscColons : List Char → List Char
  | [] => []
  | [c] => [c]
  | c :: d :: rest =>
    if c = '\\' ∧ d = '?' then ':' :: decodeEscColons rest
    else c :: decodeEscColons (d :: rest)

/-- `text.replace("\\\\", "\\")` from `decodeSafeEventDSC` (line 34):
leftmost non-overlapping double backslashes collapse to one. -/
def decodeDoubleBackslashes : List Char → List Char
  | [] => []
  | [c] => [c]
  | c :: d :: rest =>
    if c = '\\' ∧ d = '\\' then '\\' :: decodeDoubleBackslashes rest
    else c :: decodeDoubleBackslashes (d :: rest)

/-- `Schedule.encodeSafeEventDSC` (lines 23-28): double the backslashes,
then, if a colon is present, escape every colon as backslash-questionmark. -/
def encodeSafeEventDSC (text : String) : String :=
  let t1 : String := ⟨encodeBackslashes text.data⟩
  if t1.data.contains ':' then ⟨encodeColons t1.data⟩ else t1

/-- `Schedule.decodeSafeEventDSC` (lines 31-36): if backslash-questionmark
is present, turn each occurrence back into a colon, then collapse double
backslashes. -/
def decodeSafeEventDSC (text : String) : String :=
  let t1 : String :=
    if containsEscSeq text.data then ⟨decodeEscColons text.data⟩ else text
  ⟨decodeDoubleBackslashes t1.data⟩

/-- Parse tree of a JSON document, restricted to the value kinds relevant
to this library (numbers, strings, arrays).  The `json` module is Python
standard library, external to this repository, so serialization is
modelled at the parse-tree level. -/
inductive Json where
  | jnum (v : Int)
  | jstr (v : String)
  | jarr (elems : List Json)

/-- The field `self.jsonTimings` (a Python string) modelled by its parse
status: `parsed j` stands for text that `json.loads` parses to the tree
`j` (in particular `json.dumps` output parses back to its input), and
`invalid` stands for text `json.loads` raises on, such as the initial
`""` set in `__init__` (line 16). -/
inductive JsonTimings where
  | invalid
  | parsed (doc : Json)

/-- Python subscripting `tData[i]` on a parsed JSON value for a
non-negative index: arrays index their elements (IndexError when out of
range), strings index their characters as one-character strings, and
numbers are not subscriptable (TypeError). -/
def jsonIndex : Json → Nat → Except PyErr Json
  | Json.jarr l, i =>
    match l.get? i with
    | some v => Except.ok v
    | none => Except.error PyErr.indexError
  | Json.jstr s, i =>
    match s.data.get? i with
    | some c => Except.ok (Json.jstr ⟨[c]⟩)
    | none => Except.error PyErr.indexError
  | Json.jnum _, _ => Except.error PyErr.typeError

/-- Coercion of a dynamically-typed parsed JSON value into the typed
integer array field.  Python performs the assignment
`self.eventSchedule[0] = tData[0]` with no type check; the typed
embedding reads conforming documents exactly and maps non-conforming
elements to a junk default (`0` / dropping non-arrays), which no claim
evaluates. -/
def jsonAsIntList : Json → List Int
  | Json.jarr l =>
    l.map fun j =>
      match j with
      | Json.jnum v => v
      | _ => 0
  | _ => []

/-- String-array counterpart of `jsonAsIntList`, for
`self.eventSchedule[1] = tData[1]`. -/
def jsonAsStrList : Json → List String
  | Json.jarr l =>
    l.map fun j =>
      match j with
      | Json.jstr v => v
      | _ => ""
  | _ => []

/-- State of a `Schedule()` object (lines 9-20).  `eventSchedule0/1/2`
are the three parallel lists `self.eventSchedule = [[], [], []]`
(timestamps, encoded descriptors, event IDs). -/
structure Schedule where
  eventSchedule0 : List Int
  eventSchedule1 : List String
  eventSchedule2 : List Int
  jsonTimings : JsonTimings
  allowedEventModes : List String
  prevTimestamp : Int

/-- `Schedule.__init__` (lines 9-20) with the clock injected: the table
starts empty, `jsonTimings` is the empty (unparseable) string, and
`prevTimestamp` is the weekly timestamp computed from the current time. -/
def mkSchedule (allowedEventModes : List String) (initTimestamp : Int) : Schedule :=
  { eventSchedule0 := []
    eventSchedule1 := []
    eventSchedule2 := []
    jsonTimings := JsonTimings.invalid
    allowedEventModes := allowedEventModes
    prevTimestamp := initTimestamp }

/-- The inner fallback scan of `Schedule.add` (lines 84-86):
`i = 0; while i in self.eventSchedule[2]: i += 1`.  Fuel-based loop; with
fuel `ids.length + 1` the scan always reaches an unused value. -/
def scanID (ids : List Int) : Nat → Nat → Nat
  | i, 0 => i
  | i, fuel + 1 => if (i : Int) ∈ ids then scanID ids (i + 1) fuel else i

/-- The smallest non-negative integer not occurring in `ids`, as computed
by the fallback scan of `Schedule.add`. -/
def smallestUnusedID (ids : List Int) : Nat :=
  scanID ids 0 (ids.length + 1)

/-- The redraw loop of `Schedule.add` (lines 79-88), one body iteration
per fuel unit.  `draws k` is the outcome of the `k`-th call to
`randint(10000, 99999)`.  Python increments `n` each iteration and
switches to the fallback scan when `n > 100`, i.e. on the 100th body
iteration, before even testing that iteration's draw; fuel `99` from the
first body iteration reproduces this. -/
def randLoop (draws : Nat → Int) (ids : List Int) : Nat → Nat → Int
  | _, 0 => ((smallestUnusedID ids : Nat) : Int)
  | k, fuel + 1 => if draws k ∈ ids then randLoop draws ids (k + 1) fuel else draws k

/-- ID allocation in `Schedule.add` (lines 77-88): take the first draw if
unused, otherwise run the redraw loop. -/
def allocEventID (draws : Nat → Int) (ids : List Int) : Int :=
  if draws 0 ∈ ids then randLoop draws ids 1 99 else draws 0

/-- `Schedule.add` (lines 57-92) with the random source injected as the
draw stream `draws`.  The mode check precedes every mutation; on success
the timestamp and the descriptor `f"{mode}:{params}:{sampleName}"` (with
params and sampleName escaped) are appended, then a fresh ID is allocated
against `eventSchedule[2]` and appended. -/
def add (draws : Nat → Int) (timestamp : Int) (mode : String)
    (params : String) (sampleName : String) (st : Schedule) :
    Schedule × Except PyErr Int :=
  if mode ∈ st.allowedEventModes then
    let p := encodeSafeEventDSC params
    let sn := encodeSafeEventDSC sampleName
    let st1 := { st with
      eventSchedule0 := st.eventSchedule0 ++ [timestamp]
      eventSchedule1 := st.eventSchedule1 ++ [mode ++ ":" ++ p ++ ":" ++ sn] }
    let newEventID := allocEventID draws st1.eventSchedule2
    ({ st1 with eventSchedule2 := st1.eventSchedule2 ++ [newEventID] },
      Except.ok newEventID)
  else
    (st, Except.error PyErr.valueError)

/-- `Schedule.remove` (lines 95-102): `self.eventSchedule[2].index(eventID)`
raises `ValueError` when the ID is absent (before any mutation);
otherwise the entry at the first matching position is popped from all
three lists. -/
def remove (eventID : Int) (st : Schedule) : Schedule × Except PyErr Unit :=
  match st.eventSchedule2.findIdx? (fun x => x == eventID) with
  | none => (st, Except.error PyErr.valueError)
  | some rmID =>
    ({ st with
        eventSchedule0 := st.eventSchedule0.eraseIdx rmID
        eventSchedule1 := st.eventSchedule1.eraseIdx rmID
        eventSchedule2 := st.eventSchedule2.eraseIdx rmID },
      Except.ok ())

/-- The scan loop of `Schedule.tick` (lines 48-51).  Python iterates
`enumerate(self.eventSchedule[0])` and subscripts `eventSchedule[1]` and
`eventSchedule[2]` at the running index only for due events; advancing
the index by one at each step is rendered by consuming the three lists in
lockstep, and a missing entry at a due index is the `IndexError` Python
would raise there. -/
def tickScan (prev now : Int) :
    List Int → List String → List Int →
    Except PyErr (List (Int × List String × Int))
  | [], _, _ => Except.ok []
  | t :: ts, s1, s2 =>
    if prev < t ∧ t ≤ now then
      match s1, s2 with
      | d :: s1t, i :: s2t =>
        match tickScan prev now ts s1t s2t with
        | Except.ok r =>
          Except.ok ((t, (d.splitOn ":").map decodeSafeEventDSC, i) :: r)
        | Except.error e => Except.error e
      | _, _ => Except.error PyErr.indexError
    else
      tickScan prev now ts s1.tail s2.tail

/-- `Schedule.tick` (lines 39-54) with the clock injected as `now`: scan
for events due in the window `(prevTimestamp, now]`, then set
`prevTimestamp := now`.  An exception during the scan propagates before
the cursor update, leaving the state as it was. -/
def tick (now : Int) (st : Schedule) :
    Schedule × Except PyErr (List (Int × List String × Int)) :=
  match tickScan st.prevTimestamp now
      st.eventSchedule0 st.eventSchedule1 st.eventSchedule2 with
  | Except.ok l => ({ st with prevTimestamp := now }, Except.ok l)
  | Except.error e => (st, Except.error e)

/-- Python truthiness of the optional integer selectors of
`Schedule.getEvent`: `None` and `0` are falsy. -/
def optIntTruthy : Option Int → Bool
  | none => false
  | some v => decide (v ≠ 0)

/-- Python truthiness of the optional regex-string selector of
`Schedule.getEvent`: `None` and `""` are falsy. -/
def optStrTruthy : Option String → Bool
  | none => false
  | some s => decide (s ≠ "")

/-- The result tuple `(timestamp, decoded descriptor fields, eventID)`
built from position `n` of the table, as on lines 116, 119 and 124.
Subscripting is total with junk defaults; every use guards `n` by a
membership test on the corresponding list. -/
def entryAt (st : Schedule) (n : Nat) : Int × List String × Int :=
  (st.eventSchedule0.getD n 0,
    ((st.eventSchedule1.getD n "").splitOn ":").map decodeSafeEventDSC,
    st.eventSchedule2.getD n 0)

/-- `Schedule.getEvent` (lines 105-127) with `re.search` injected as the
predicate `search regex text`.  Branch guards follow Python truthiness:
`if(eventID and eventID in ...)`, `elif(eventTimestamp and ...)`,
`elif(eventDscRegex)`, else `return None`. -/
def getEvent (search : String → String → Bool) (eventID : Option Int)
    (eventTimestamp : Option Int) (eventDscRegex : Option String)
    (st : Schedule) : Option (List (Int × List String × Int)) :=
  if optIntTruthy eventID = true ∧ eventID.getD 0 ∈ st.eventSchedule2 then
    some [entryAt st (List.indexOf (eventID.getD 0) st.eventSchedule2)]
  else if optIntTruthy eventTimestamp = true ∧
      eventTimestamp.getD 0 ∈ st.eventSchedule0 then
    some [entryAt st (List.indexOf (eventTimestamp.getD 0) st.eventSchedule0)]
  else if optStrTruthy eventDscRegex = true then
    some ((List.range st.eventSchedule0.length).filterMap fun eN =>
      if search (eventDscRegex.getD "") (st.eventSchedule1.getD eN "") = true
      then some (entryAt st eN) else none)
  else
    none

/-- `Schedule.exportTimings` (lines 129-136): serialize the three lists
as the JSON document `[[timestamp, ...], [descriptor, ...], [id, ...]]`
into `jsonTimings` (the text produced by `json.dumps` parses back to this
tree) and return the object. -/
def exportTimings (st : Schedule) : Schedule :=
  { st with
    jsonTimings := JsonTimings.parsed (Json.jarr
      [Json.jarr (st.eventSchedule0.map Json.jnum),
        Json.jarr (st.eventSchedule1.map Json.jstr),
        Json.jarr (st.eventSchedule2.map Json.jnum)]) }

/-- `Schedule.importTimings` (lines 163-171): parse `jsonTimings`
(`json.loads` raising on invalid text, before any mutation), then assign
`eventSchedule[0] = tData[0]`, `eventSchedule[1] = tData[1]`,
`eventSchedule[2] = tData[2]` in order; a subscript error propagates
after the earlier assignments have already happened. -/
def importTimings (st : Schedule) : Schedule × Except PyErr Unit :=
  match st.jsonTimings with
  | JsonTimings.invalid => (st, Except.error PyErr.jsonDecodeError)
  | JsonTimings.parsed tData =>
    match jsonIndex tData 0 with
    | Except.error e => (st, Except.error e)
    | Except.ok v0 =>
      let st0 := { st with eventSchedule0 := jsonAsIntList v0 }
      match jsonIndex tData 1 with
      | Except.error e => (st0, Except.error e)
      | Except.ok v1 =>
        let st1 := { st0 with eventSchedule1 := jsonAsStrList v1 }
        match jsonIndex tData 2 with
        | Except.error e => (st1, Except.error e)
        | Except.ok v2 =>
          ({ st1 with eventSchedule2 := jsonAsIntList v2 }, Except.ok ())

/-- The outcomes `randint(10000, 99999)` can produce: every draw of the
stream lies in that interval. -/
def randintRange (draws : Nat → Int) : Prop :=
  ∀ k, 10000 ≤ draws k ∧ draws k ≤ 99999

/-- A concrete aligned three-event table used to evaluate theorems on a
specific input. -/
def sampleTable : Schedule :=
  { eventSchedule0 := [5, 300, 100]
    eventSchedule1 := ["b:x:y", "l:p\\?q:r", "s::"]
    eventSchedule2 := [10, 11, 12]
    jsonTimings := JsonTimings.invalid
    allowedEventModes := ["b", "l", "s", "r", "y", "m"]
    prevTimestamp := 7 }

/-- A concrete table whose pending serialized form is valid JSON but an
array of length two instead of three. -/
def importCounterexampleState : Schedule :=
  { eventSchedule0 := [7]
    eventSchedule1 := ["b:p:q"]
    eventSchedule2 := [42]
    jsonTimings := JsonTimings.parsed (Json.jarr
      [Json.jarr [Json.jnum 1], Json.jarr [Json.jstr "x"]])
    allowedEventModes := ["b"]
    prevTimestamp := 0 }

/-- States reachable from a freshly constructed `Schedule()` by finite
sequences of successful `add` and `remove` calls, for arbitrary outcomes
of the random draws. -/
inductive Reachable : Schedule → Prop where
  | init (modes : List String) (ts : Int) : Reachable (mkSchedule modes ts)
  | addStep {st st' : Schedule} {i : Int} (draws : Nat → Int) (t : Int)
      (m p s : String) : Reachable st →
      add draws t m p s st = (st', Except.ok i) → Reachable st'
  | removeStep {st st' : Schedule} (id : Int) : Reachable st →
      remove id st = (st', Except.ok ()) → Reachable st'

/-! ## Helper lemmas for the descriptor escaping -/

theorem containsEscSeq_tail {c : Char} {l : List Char}
    (h : containsEscSeq (c :: l) = false) : containsEscSeq l = false := by
  cases l with
  | nil => rfl
  | cons d rest =>
    rw [containsEscSeq] at h
    split at h
    · exact absurd h (by simp)
    · exact h

theorem colon_not_mem_encodeColons (l : List Char) : ':' ∉ encodeColons l := by
  induction l with
  | nil => simp [encodeColons]
  | cons c rest ih =>
    rw [encodeColons]
    split
    · simp [ih]
    · rename_i hc
      simp only [List.singleton_append, List.mem_cons]
      rintro (rfl | hm)
      · exact hc rfl
      · exact ih hm

theorem encodeColons_id (l : List Char) (h : ':' ∉ l) : encodeColons l = l := by
  induction l with
  | nil => rfl
  | cons c rest ih =>
    rw [encodeColons, if_neg (by intro hc; exact h (hc ▸ List.mem_cons_self c rest))]
    simp only [List.singleton_append, List.cons.injEq, true_and]
    exact ih fun hm => h (List.mem_cons_of_mem c hm)

theorem decodeEscColons_id (l : List Char) (h : containsEscSeq l = false) :
    decodeEscColons l = l := by
  induction l using decodeEscColons.induct with
  | case1 => rfl
  | case2 c => rfl
  | case3 c d rest hcd ih =>
    rw [containsEscSeq, if_pos hcd] at h
    exact absurd h (by simp)
  | case4 c d rest hcd ih =>
    rw [containsEscSeq, if_neg hcd] at h
    rw [decodeEscColons, if_neg hcd, ih h]

theorem decodeDoubleBackslashes_encodeBackslashes (l : List Char) :
    decodeDoubleBackslashes (encodeBackslashes l) = l := by
  induction l with
  | nil => rfl
  | cons c rest ih =>
    rw [encodeBackslashes]
    by_cases hc : c = '\\'
    · subst hc
      rw [if_pos rfl]
      simp only [List.cons_append, List.nil_append]
      rw [decodeDoubleBackslashes, if_pos (by exact ⟨rfl, rfl⟩), ih]
    · rw [if_neg hc]
      simp only [List.singleton_append]
      cases hE : encodeBackslashes rest with
      | nil =>
        rw [hE] at ih
        cases rest with
        | nil => rfl
        | cons d r2 =>
          rw [encodeBackslashes] at hE
          split at hE <;> simp at hE
      | cons x xs =>
        rw [decodeDoubleBackslashes, if_neg (by rintro ⟨h1, h2⟩; exact hc h1)]
        rw [← hE, ih]

theorem encodeHead (r : List Char) (x : Char) (xs : List Char)
    (hE : encodeColons (encodeBackslashes r) = x :: xs) (hx : x = '?') :
    r.head? = some '?' := by
  cases r with
  | nil => simp [encodeBackslashes, encodeColons] at hE
  | cons c r2 =>
    rw [encodeBackslashes] at hE
    by_cases hc : c = '\\'
    · rw [if_pos hc] at hE
      simp only [List.cons_append, List.nil_append] at hE
      rw [encodeColons, if_neg (by decide)] at hE
      simp only [List.singleton_append, List.cons.injEq] at hE
      subst hx
      exact absurd hE.1.symm (by decide)
    · rw [if_neg hc] at hE
      simp only [List.singleton_append] at hE
      rw [encodeColons] at hE
      by_cases hcc : c = ':'
      · rw [if_pos hcc] at hE
        simp only [List.cons_append, List.nil_append, List.cons.injEq] at hE
        subst hx
        exact absurd hE.1.symm (by decide)
      · rw [if_neg hcc] at hE
        simp only [List.singleton_append, List.cons.injEq] at hE
        simp [hE.1, hx]

theorem encodeBackslashes_eq_nil {l : List Char} (h : encodeBackslashes l = []) :
    l = [] := by
  cases l with
  | nil => rfl
  | cons c rest =>
    rw [encodeBackslashes] at h
    split at h <;> simp at h

theorem encodeColons_eq_nil {l : List Char} (h : encodeColons l = []) : l = [] := by
  cases l with
  | nil => rfl
  | cons c rest =>
    rw [encodeColons] at h
    split at h <;> simp at h

theorem decodeEscColons_encode (l : List Char) (h : containsEscSeq l = false) :
    decodeEscColons (encodeColons (encodeBackslashes l)) = encodeBackslashes l := by
  induction l with
  | nil => rfl
  | cons c rest ih =>
    have hrest : containsEscSeq rest = false := containsEscSeq_tail h
    rw [encodeBackslashes]
    by_cases hc : c = '\\'
    · subst hc
      rw [if_pos rfl]
      simp only [List.cons_append, List.nil_append]
      rw [encodeColons, if_neg (by decide)]
      simp only [List.singleton_append]
      rw [encodeColons, if_neg (by decide)]
      simp only [List.singleton_append]
      cases hE : encodeColons (encodeBackslashes rest) with
      | nil =>
        have h0 : encodeBackslashes rest = [] := encodeColons_eq_nil hE
        have h1 : rest = [] := encodeBackslashes_eq_nil h0
        subst h1
        rfl
      | cons x xs =>
        rw [decodeEscColons, if_neg (by decide)]
        have hx : x ≠ '?' := by
          intro hx
          have hh := encodeHead rest x xs hE hx
          cases rest with
          | nil => simp at hh
          | cons d r2 =>
            simp only [List.head?_cons, Option.some.injEq] at hh
            subst hh
            rw [containsEscSeq, if_pos ⟨rfl, rfl⟩] at h
            exact absurd h (by simp)
        rw [decodeEscColons, if_neg (by rintro ⟨h1, h2⟩; exact hx h2)]
        rw [← hE, ih hrest]
    · rw [if_neg hc]
      simp only [List.singleton_append]
      rw [encodeColons]
      by_cases hcc : c = ':'
      · rw [if_pos hcc]
        simp only [List.cons_append, List.nil_append]
        rw [decodeEscColons, if_pos ⟨rfl, rfl⟩, ih hrest, hcc]
      · rw [if_neg hcc]
        simp only [List.singleton_append]
        cases hE : encodeColons (encodeBackslashes rest) with
        | nil =>
          have h0 : encodeBackslashes rest = [] := encodeColons_eq_nil hE
          have h1 : rest = [] := encodeBackslashes_eq_nil h0
          subst h1
          rfl
        | cons x xs =>
          rw [decodeEscColons, if_neg (by rintro ⟨h1, h2⟩; exact hc h1)]
          rw [← hE, ih hrest]

theorem encodeSafeEventDSC_data (s : String) :
    (encodeSafeEventDSC s).data = encodeColons (encodeBackslashes s.data) := by
  rw [encodeSafeEventDSC]
  simp only []
  split
  · rfl
  · rename_i hg
    simp only [List.contains, List.elem_eq_mem, decide_eq_true_eq] at hg
    exact (encodeColons_id _ hg).symm

theorem decodeSafeEventDSC_data (t : String) :
    (decodeSafeEventDSC t).data = decodeDoubleBackslashes (decodeEscColons t.data) := by
  rw [decodeSafeEventDSC]
  simp only []
  split
  · rfl
  · rename_i hg
    rw [decodeEscColons_id t.data (by revert hg; cases containsEscSeq t.data <;> simp)]

theorem encoded_colon_free (s : String) :
    (encodeSafeEventDSC s).data.contains ':' = false := by
  rw [encodeSafeEventDSC]
  simp only []
  split
  · simp only [List.contains, List.elem_eq_mem, decide_eq_false_iff_not]
    exact colon_not_mem_encodeColons _
  · rename_i hg
    revert hg
    cases (⟨encodeBackslashes s.data⟩ : String).data.contains ':' <;> simp

/-! ## C1: descriptor escaping round trip -/

/-- C1 counterexample: the claim "decodeSafeEventDSC (encodeSafeEventDSC s)
equals s for every string s, in particular strings containing a literal
backslash-questionmark sequence" fails at the two-character input
backslash-questionmark: it encodes to backslash-backslash-questionmark,
which decode's first replacement pass (backslash-questionmark to colon)
mangles into backslash-colon. -/
theorem c1_escape_roundtrip_counterexample :
    decodeSafeEventDSC (encodeSafeEventDSC "\\?") ≠ "\\?" ∧
    decodeSafeEventDSC (encodeSafeEventDSC "\\?") = "\\:" :=
  ⟨by decide, by decide⟩

/-- C1 (amended): descriptor escaping is a lossless round trip for every
string that does not already contain a backslash immediately followed by
a question mark: for such s, decodeSafeEventDSC (encodeSafeEventDSC s) = s;
and the encoded form of such s contains no colon at all (hence no
unescaped colon). -/
theorem c1_escape_roundtrip_amended (s : String)
    (h : containsEscSeq s.data = false) :
    decodeSafeEventDSC (encodeSafeEventDSC s) = s ∧
    (encodeSafeEventDSC s).data.contains ':' = false := by
  refine ⟨?_, encoded_colon_free s⟩
  apply String.ext
  rw [decodeSafeEventDSC_data, encodeSafeEventDSC_data,
    decodeEscColons_encode s.data h, decodeDoubleBackslashes_encodeBackslashes]

/-- C1 witness: the amended round trip evaluated at the concrete string
"a:\b", which contains both a colon and a backslash but no
backslash-questionmark sequence. -/
theorem c1_escape_roundtrip_witness :
    containsEscSeq "a:\\b".data = false ∧
    (decodeSafeEventDSC (encodeSafeEventDSC "a:\\b") = "a:\\b" ∧
      (encodeSafeEventDSC "a:\\b").data.contains ':' = false) :=
  ⟨by decide, c1_escape_roundtrip_amended "a:\\b" (by decide)⟩

/-! ## C2: importTimings failure atomicity -/

/-- C2 counterexample: the claim "for every pending serialized form that
is not a well-formed 3-array document importTimings raises an error and
leaves all three arrays exactly as they were" fails for a parsed array of
length two: the call raises IndexError, but array 0 has already been
replaced (here `[7]` became `[1]`). -/
theorem c2_importTimings_atomicity_counterexample :
    (importTimings importCounterexampleState).2 = Except.error PyErr.indexError ∧
    (importTimings importCounterexampleState).1.eventSchedule0 = [1] ∧
    importCounterexampleState.eventSchedule0 = [7] :=
  ⟨rfl, rfl, rfl⟩

/-- C2 (amended): importTimings raises an error on every non-3-array
pending form, but it is atomic only when parsing itself fails (the table
is then untouched); when the form parses to an array of length two the
IndexError is raised only after arrays 0 and 1 have been replaced by the
parsed values, with array 2, the cursor and the rest of the state keeping
their prior values (a partial replacement). -/
theorem c2_importTimings_partiality_amended (st : Schedule) :
    (st.jsonTimings = JsonTimings.invalid →
      importTimings st = (st, Except.error PyErr.jsonDecodeError)) ∧
    (∀ a b : Json, st.jsonTimings = JsonTimings.parsed (Json.jarr [a, b]) →
      importTimings st =
        ({ st with
            eventSchedule0 := jsonAsIntList a
            eventSchedule1 := jsonAsStrList b },
          Except.error PyErr.indexError)) := by
  constructor
  · intro h
    rw [importTimings, h]
  · intro a b h
    rw [importTimings, h]
    rfl

/-- C2 witness: the amended behavior evaluated on a freshly created table
(unparseable pending form, atomic failure) and on the concrete length-two
document (partial replacement). -/
theorem c2_importTimings_witness :
    importTimings (mkSchedule ["b"] 0) =
      (mkSchedule ["b"] 0, Except.error PyErr.jsonDecodeError) ∧
    importTimings importCounterexampleState =
      ({ importCounterexampleState with
          eventSchedule0 := jsonAsIntList (Json.jarr [Json.jnum 1])
          eventSchedule1 := jsonAsStrList (Json.jarr [Json.jstr "x"]) },
        Except.error PyErr.indexError) :=
  ⟨(c2_importTimings_partiality_amended (mkSchedule ["b"] 0)).1 rfl,
    (c2_importTimings_partiality_amended importCounterexampleState).2
      (Json.jarr [Json.jnum 1]) (Json.jarr [Json.jstr "x"]) rfl⟩

/-! ## C8: serialization round trip -/

theorem jsonAsIntList_map (l : List Int) :
    jsonAsIntList (Json.jarr (l.map Json.jnum)) = l := by
  induction l with
  | nil => rfl
  | cons x xs ih =>
    simp only [jsonAsIntList, List.map_cons, List.map_map] at ih ⊢
    simp [ih]

theorem jsonAsStrList_map (l : List String) :
    jsonAsStrList (Json.jarr (l.map Json.jstr)) = l := by
  induction l with
  | nil => rfl
  | cons x xs ih =>
    simp only [jsonAsStrList, List.map_cons, List.map_map] at ih ⊢
    simp [ih]

/-- C8: exporting and then importing reproduces the three arrays
element for element, for every table state, including tables whose
descriptors contain escaped colons and backslashes. -/
theorem c8_export_import_roundtrip (st : Schedule) :
    (importTimings (exportTimings st)).2 = Except.ok () ∧
    (importTimings (exportTimings st)).1.eventSchedule0 = st.eventSchedule0 ∧
    (importTimings (exportTimings st)).1.eventSchedule1 = st.eventSchedule1 ∧
    (importTimings (exportTimings st)).1.eventSchedule2 = st.eventSchedule2 := by
  simp [importTimings, exportTimings, jsonIndex, jsonAsIntList_map, jsonAsStrList_map]

/-! ## C3 and C10: tick -/

theorem tickScan_ok (prev now : Int) :
    ∀ (ts : List Int) (s1 : List String) (s2 : List Int),
    s1.length = ts.length → s2.length = ts.length →
    tickScan prev now ts s1 s2 =
      Except.ok (((ts.zip (s1.zip s2)).filter
          fun p => decide (prev < p.1 ∧ p.1 ≤ now)).map
        fun p => (p.1, (p.2.1.splitOn ":").map decodeSafeEventDSC, p.2.2)) := by
  intro ts
  induction ts with
  | nil => intro s1 s2 h1 h2; rfl
  | cons t ts ih =>
    intro s1 s2 h1 h2
    cases s1 with
    | nil => simp at h1
    | cons d s1t =>
      cases s2 with
      | nil => simp at h2
      | cons i s2t =>
        simp only [List.length_cons, Nat.add_right_cancel_iff] at h1 h2
        rw [tickScan]
        split
        · rename_i hdue
          rw [ih s1t s2t h1 h2]
          simp [List.filter_cons, hdue]
        · rename_i hdue
          simp only [List.tail_cons]
          rw [ih s1t s2t h1 h2]
          simp [List.filter_cons, hdue]

/-- C3: on an aligned table, tick returns exactly the events whose
timestamp t satisfies prevTimestamp < t <= now, as tuples of the
timestamp, the decoded colon-split descriptor fields and the event ID, in
table order; the cursor is then set to now; and whenever now <=
prevTimestamp (equality or week wraparound) the returned list is empty. -/
theorem c3_tick_due_detection (now : Int) (st : Schedule)
    (h1 : st.eventSchedule1.length = st.eventSchedule0.length)
    (h2 : st.eventSchedule2.length = st.eventSchedule0.length) :
    tick now st =
      ({ st with prevTimestamp := now },
        Except.ok (((st.eventSchedule0.zip
              (st.eventSchedule1.zip st.eventSchedule2)).filter
            fun p => decide (st.prevTimestamp < p.1 ∧ p.1 ≤ now)).map
          fun p => (p.1, (p.2.1.splitOn ":").map decodeSafeEventDSC, p.2.2))) ∧
    (tick now st).1.prevTimestamp = now ∧
    (now ≤ st.prevTimestamp → (tick now st).2 = Except.ok []) := by
  have hscan := tickScan_ok st.prevTimestamp now
    st.eventSchedule0 st.eventSchedule1 st.eventSchedule2 h1 h2
  have hmain : tick now st =
      ({ st with prevTimestamp := now },
        Except.ok (((st.eventSchedule0.zip
              (st.eventSchedule1.zip st.eventSchedule2)).filter
            fun p => decide (st.prevTimestamp < p.1 ∧ p.1 ≤ now)).map
          fun p => (p.1, (p.2.1.splitOn ":").map decodeSafeEventDSC, p.2.2))) := by
    rw [tick, hscan]
  refine ⟨hmain, by rw [hmain], ?_⟩
  intro hle
  rw [hmain]
  simp only [Except.ok.injEq, List.map_eq_nil_iff, List.filter_eq_nil_iff]
  intro p hp
  simp only [decide_eq_true_eq, not_and, not_le]
  intro hlt
  omega

/-- C3 witness: the due-detection theorem evaluated on the concrete
three-event table with cursor 7 and clock 150, where exactly the event
with timestamp 100 is due. -/
theorem c3_tick_due_detection_witness :
    sampleTable.eventSchedule1.length = sampleTable.eventSchedule0.length ∧
    sampleTable.eventSchedule2.length = sampleTable.eventSchedule0.length ∧
    (tick 150 sampleTable =
      ({ sampleTable with prevTimestamp := 150 },
        Except.ok (((sampleTable.eventSchedule0.zip
              (sampleTable.eventSchedule1.zip sampleTable.eventSchedule2)).filter
            fun p => decide (sampleTable.prevTimestamp < p.1 ∧ p.1 ≤ 150)).map
          fun p => (p.1, (p.2.1.splitOn ":").map decodeSafeEventDSC, p.2.2))) ∧
    (tick 150 sampleTable).1.prevTimestamp = 150 ∧
    (150 ≤ sampleTable.prevTimestamp → (tick 150 sampleTable).2 = Except.ok [])) :=
  ⟨rfl, rfl, c3_tick_due_detection 150 sampleTable rfl rfl⟩

/-- C10: tick mutates only the cursor; the three arrays, the pending
serialized form and the allowed-mode set are identical after the call,
whether or not events were due (and also on the error path, where even
the cursor is untouched). -/
theorem c10_tick_frame (now : Int) (st : Schedule) :
    (tick now st).1.eventSchedule0 = st.eventSchedule0 ∧
    (tick now st).1.eventSchedule1 = st.eventSchedule1 ∧
    (tick now st).1.eventSchedule2 = st.eventSchedule2 ∧
    (tick now st).1.jsonTimings = st.jsonTimings ∧
    (tick now st).1.allowedEventModes = st.allowedEventModes := by
  rw [tick]
  cases tickScan st.prevTimestamp now
    st.eventSchedule0 st.eventSchedule1 st.eventSchedule2 <;> simp

/-! ## C6: add rejects invalid modes atomically -/

/-- C6: when the mode is not in the allowed set, add raises ValueError
and returns the state completely unchanged (all three arrays, the
pending serialized form and the cursor): the mode check precedes every
mutation. -/
theorem c6_add_invalid_mode_atomic (draws : Nat → Int) (t : Int)
    (mode p s : String) (st : Schedule) (h : mode ∉ st.allowedEventModes) :
    add draws t mode p s st = (st, Except.error PyErr.valueError) := by
  rw [add, if_neg h]

/-- C6 witness: adding with the disallowed mode "z" to a fresh table
whose allowed set is `["b"]` fails and leaves the state identical. -/
theorem c6_add_invalid_mode_witness :
    "z" ∉ (mkSchedule ["b"] 0).allowedEventModes ∧
    add (fun _ => (10000 : Int)) 5 "z" "" "" (mkSchedule ["b"] 0) =
      (mkSchedule ["b"] 0, Except.error PyErr.valueError) :=
  ⟨by decide, c6_add_invalid_mode_atomic (fun _ => (10000 : Int)) 5 "z" "" ""
    (mkSchedule ["b"] 0) (by decide)⟩

/-! ## Helper lemmas for ID allocation -/

theorem scanID_not_mem (ids : List Int) :
    ∀ (fuel i : Nat), (∃ k, k < fuel ∧ ((i + k : Nat) : Int) ∉ ids) →
    ((scanID ids i fuel : Nat) : Int) ∉ ids := by
  intro fuel
  induction fuel with
  | zero =>
    rintro i ⟨k, hk, _⟩
    omega
  | succ fuel ih =>
    rintro i ⟨k, hk, hmem⟩
    rw [scanID]
    split
    · rename_i hin
      apply ih
      cases k with
      | zero => simp only [Nat.add_zero] at hmem; exact absurd hin hmem
      | succ k2 =>
        refine ⟨k2, by omega, ?_⟩
        have harith : i + 1 + k2 = i + (k2 + 1) := by omega
        rw [harith]
        exact hmem
    · rename_i hin
      exact hin

theorem exists_unused (ids : List Int) :
    ∃ k, k < ids.length + 1 ∧ ((k : Nat) : Int) ∉ ids := by
  by_contra hc
  push_neg at hc
  have hinj : Set.InjOn (fun k : Nat => (k : Int))
      (Finset.range (ids.length + 1)) := by
    intro a _ b _ h
    simpa using h
  have hmaps : ∀ a ∈ Finset.range (ids.length + 1),
      ((a : Nat) : Int) ∈ ids.toFinset := by
    intro a ha
    rw [List.mem_toFinset]
    exact hc a (Finset.mem_range.mp ha)
  have hcard := Finset.card_le_card_of_injOn _ hmaps hinj
  rw [Finset.card_range] at hcard
  have h2 : ids.toFinset.card ≤ ids.length := List.toFinset_card_le ids
  omega

theorem smallestUnusedID_not_mem (ids : List Int) :
    ((smallestUnusedID ids : Nat) : Int) ∉ ids := by
  obtain ⟨k, hk, hmem⟩ := exists_unused ids
  exact scanID_not_mem ids (ids.length + 1) 0 ⟨k, hk, by simpa using hmem⟩

theorem randLoop_not_mem (draws : Nat → Int) (ids : List Int) :
    ∀ (fuel k : Nat), randLoop draws ids k fuel ∉ ids := by
  intro fuel
  induction fuel with
  | zero => intro k; exact smallestUnusedID_not_mem ids
  | succ fuel ih =>
    intro k
    rw [randLoop]
    split
    · exact ih (k + 1)
    · rename_i h
      exact h

theorem allocEventID_not_mem (draws : Nat → Int) (ids : List Int) :
    allocEventID draws ids ∉ ids := by
  rw [allocEventID]
  split
  · exact randLoop_not_mem draws ids 99 1
  · rename_i h
    exact h

theorem add_ok_spec {draws : Nat → Int} {t : Int} {m p s : String}
    {st st' : Schedule} {i : Int}
    (h : add draws t m p s st = (st', Except.ok i)) :
    i = allocEventID draws st.eventSchedule2 ∧
    st'.eventSchedule2 = st.eventSchedule2 ++ [i] := by
  rw [add] at h
  split at h
  · simp only [Prod.mk.injEq, Except.ok.injEq] at h
    obtain ⟨hst, hi⟩ := h
    subst hi
    rw [← hst]
    exact ⟨rfl, rfl⟩
  · simp at h

theorem remove_ok_spec {id : Int} {st st' : Schedule}
    (h : remove id st = (st', Except.ok ())) :
    ∃ k, st'.eventSchedule2 = st.eventSchedule2.eraseIdx k := by
  rw [remove] at h
  cases hf : st.eventSchedule2.findIdx? (fun x => x == id) with
  | none => rw [hf] at h; simp at h
  | some k =>
    rw [hf] at h
    simp only [Prod.mk.injEq] at h
    exact ⟨k, by rw [← h.1]⟩

/-! ## C4: eventID uniqueness invariant -/

/-- C4: starting from an empty table, after every finite sequence of
successful add and remove operations (whatever the random draws produce)
the stored event IDs are pairwise distinct; and every successful add
returns an ID that was not previously in the table. -/
theorem c4_eventID_uniqueness :
    (∀ st : Schedule, Reachable st → st.eventSchedule2.Nodup) ∧
    (∀ (draws : Nat → Int) (t : Int) (m p s : String) (st : Schedule) (i : Int),
      (add draws t m p s st).2 = Except.ok i → i ∉ st.eventSchedule2) := by
  constructor
  · intro st h
    induction h with
    | init modes ts => simp [mkSchedule]
    | addStep draws t m p s hst heq ih =>
      obtain ⟨hi, h2⟩ := add_ok_spec heq
      rw [h2]
      refine List.Nodup.append ih (List.nodup_singleton _) ?_
      rw [List.disjoint_singleton]
      rw [hi]
      exact allocEventID_not_mem draws _
    | removeStep id hst heq ih =>
      obtain ⟨k, h2⟩ := remove_ok_spec heq
      rw [h2]
      exact (List.eraseIdx_sublist _ k).nodup ih
  · intro draws t m p s st i h
    have hpair : add draws t m p s st =
        ((add draws t m p s st).1, Except.ok i) := by
      rw [← h]
    obtain ⟨hi, _⟩ := add_ok_spec hpair
    rw [hi]
    exact allocEventID_not_mem draws _

/-- C4 witness: one successful add on a fresh table yields the state with
ID list `[10000]`, which is duplicate-free, and the returned ID `10000`
was not previously present. -/
theorem c4_eventID_uniqueness_witness :
    add (fun _ => (10000 : Int)) 5 "b" "" "" (mkSchedule ["b"] 0) =
      ({ eventSchedule0 := [5]
         eventSchedule1 := ["b::"]
         eventSchedule2 := [10000]
         jsonTimings := JsonTimings.invalid
         allowedEventModes := ["b"]
         prevTimestamp := 0 }, Except.ok 10000) ∧
    List.Nodup [(10000 : Int)] ∧
    (10000 : Int) ∉ (mkSchedule ["b"] 0).eventSchedule2 := by
  have hadd : add (fun _ => (10000 : Int)) 5 "b" "" "" (mkSchedule ["b"] 0) =
      ({ eventSchedule0 := [5]
         eventSchedule1 := ["b::"]
         eventSchedule2 := [10000]
         jsonTimings := JsonTimings.invalid
         allowedEventModes := ["b"]
         prevTimestamp := 0 }, Except.ok 10000) := by rfl
  refine ⟨hadd, ?_, ?_⟩
  · exact c4_eventID_uniqueness.1 _
      (Reachable.addStep (fun _ => (10000 : Int)) 5 "b" "" ""
        (Reachable.init ["b"] 0) hadd)
  · exact c4_eventID_uniqueness.2 (fun _ => (10000 : Int)) 5 "b" "" ""
      (mkSchedule ["b"] 0) 10000 (by rw [hadd])

/-! ## C5: allocated IDs and positivity -/

/-- C5 counterexample: the claim "the ID returned by add is strictly
greater than 0 for every reachable state and every outcome of the draws"
fails: after one add has stored ID 10000, a second add whose draws all
return 10000 collides 100 times, falls back to the linear scan from 0,
and returns 0. -/
theorem c5_positive_id_counterexample :
    (add (fun _ => (10000 : Int)) 200 "b" "" ""
        ((add (fun _ => (10000 : Int)) 100 "b" "" ""
          (mkSchedule ["b"] 0)).1)).2 = Except.ok 0 ∧
    ¬ (0 : Int) > 0 :=
  ⟨by rfl, by omega⟩

theorem randLoop_nonneg (draws : Nat → Int) (ids : List Int)
    (hd : randintRange draws) :
    ∀ (fuel k : Nat), 0 ≤ randLoop draws ids k fuel := by
  intro fuel
  induction fuel with
  | zero =>
    intro k
    rw [randLoop]
    exact Int.natCast_nonneg _
  | succ fuel ih =>
    intro k
    rw [randLoop]
    split
    · exact ih (k + 1)
    · have := (hd k).1
      omega

theorem allocEventID_nonneg (draws : Nat → Int) (ids : List Int)
    (hd : randintRange draws) : 0 ≤ allocEventID draws ids := by
  rw [allocEventID]
  split
  · exact randLoop_nonneg draws ids hd 99 1
  · have := (hd 0).1
    omega

/-- C5 (amended): for draws in randint's range, every ID returned by a
successful add is non-negative; it is at least 10000 when it comes from a
random draw, but the deterministic fallback scan starts at 0 and can
return 0, so strict positivity does not hold. -/
theorem c5_id_nonneg_amended (draws : Nat → Int) (t : Int) (m p s : String)
    (st : Schedule) (i : Int) (hd : randintRange draws)
    (h : (add draws t m p s st).2 = Except.ok i) : 0 ≤ i := by
  have hpair : add draws t m p s st =
      ((add draws t m p s st).1, Except.ok i) := by
    rw [← h]
  obtain ⟨hi, _⟩ := add_ok_spec hpair
  rw [hi]
  exact allocEventID_nonneg draws _ hd

/-- C5 witness: the amended bound evaluated at a fresh table and the
constant draw stream 10000, whose first add returns the ID 10000. -/
theorem c5_id_nonneg_witness :
    randintRange (fun _ => (10000 : Int)) ∧
    (add (fun _ => (10000 : Int)) 5 "b" "" "" (mkSchedule ["b"] 0)).2 =
      Except.ok 10000 ∧
    (0 : Int) ≤ 10000 :=
  ⟨fun _ => ⟨by norm_num, by norm_num⟩, rfl,
    c5_id_nonneg_amended (fun _ => (10000 : Int)) 5 "b" "" ""
      (mkSchedule ["b"] 0) 10000 (fun _ => ⟨by norm_num, by norm_num⟩) rfl⟩

/-! ## C7: remove is correct and atomic -/

/-- C7: on an aligned table, removing an absent ID raises ValueError with
the state exactly unchanged, and removing a present ID deletes the entry
at the ID's first position from all three arrays, leaving every other
entry in its original relative order (the arrays become take k ++ drop
(k+1)). -/
theorem c7_remove_correct_atomic (id : Int) (st : Schedule)
    (h0 : st.eventSchedule0.length = st.eventSchedule2.length)
    (h1 : st.eventSchedule1.length = st.eventSchedule2.length) :
    (id ∉ st.eventSchedule2 →
      remove id st = (st, Except.error PyErr.valueError)) ∧
    (id ∈ st.eventSchedule2 → ∃ k,
      st.eventSchedule2.get? k = some id ∧
      (∀ j, j < k → st.eventSchedule2.get? j ≠ some id) ∧
      remove id st =
        ({ st with
            eventSchedule0 :=
              st.eventSchedule0.take k ++ st.eventSchedule0.drop (k + 1)
            eventSchedule1 :=
              st.eventSchedule1.take k ++ st.eventSchedule1.drop (k + 1)
            eventSchedule2 :=
              st.eventSchedule2.take k ++ st.eventSchedule2.drop (k + 1) },
          Except.ok ())) := by
  constructor
  · intro hni
    have hnone : st.eventSchedule2.findIdx? (fun x => x == id) = none := by
      rw [List.findIdx?_eq_none_iff]
      intro x hx
      simp only [beq_eq_false_iff_ne, ne_eq]
      intro hxid
      exact hni (hxid ▸ hx)
    rw [remove, hnone]
  · intro hmem
    have hsome : (st.eventSchedule2.findIdx? (fun x => x == id)).isSome = true := by
      rw [List.findIdx?_isSome, List.any_eq_true]
      exact ⟨id, hmem, by simp⟩
    obtain ⟨k, hk⟩ := Option.isSome_iff_exists.mp hsome
    obtain ⟨hlt, hpk, hprev⟩ := List.findIdx?_eq_some_iff_getElem.mp hk
    have hval : st.eventSchedule2[k] = id := eq_of_beq hpk
    refine ⟨k, ?_, ?_, ?_⟩
    · rw [List.get?_eq_getElem?, List.getElem?_eq_getElem hlt, hval]
    · intro j hj heq
      have hjlt : j < st.eventSchedule2.length := Nat.lt_trans hj hlt
      rw [List.get?_eq_getElem?, List.getElem?_eq_getElem hjlt] at heq
      have hje : st.eventSchedule2[j] = id := by
        injection heq
      exact hprev j hj (by simp [hje])
    · rw [remove, hk]
      simp only [List.eraseIdx_eq_take_drop_succ]

/-- C7 witness: the theorem evaluated at the concrete three-event table
and ID 11, which sits at position 1 of the ID array. -/
theorem c7_remove_witness :
    sampleTable.eventSchedule0.length = sampleTable.eventSchedule2.length ∧
    sampleTable.eventSchedule1.length = sampleTable.eventSchedule2.length ∧
    (((11 : Int) ∉ sampleTable.eventSchedule2 →
      remove 11 sampleTable = (sampleTable, Except.error PyErr.valueError)) ∧
    ((11 : Int) ∈ sampleTable.eventSchedule2 → ∃ k,
      sampleTable.eventSchedule2.get? k = some 11 ∧
      (∀ j, j < k → sampleTable.eventSchedule2.get? j ≠ some 11) ∧
      remove 11 sampleTable =
        ({ sampleTable with
            eventSchedule0 :=
              sampleTable.eventSchedule0.take k ++
                sampleTable.eventSchedule0.drop (k + 1)
            eventSchedule1 :=
              sampleTable.eventSchedule1.take k ++
                sampleTable.eventSchedule1.drop (k + 1)
            eventSchedule2 :=
              sampleTable.eventSchedule2.take k ++
                sampleTable.eventSchedule2.drop (k + 1) },
          Except.ok ()))) :=
  ⟨rfl, rfl, c7_remove_correct_atomic 11 sampleTable rfl rfl⟩

/-! ## C9: getEvent treats zero selectors as absent -/

/-- C9: a selector value of 0 behaves exactly like an absent selector,
for both the eventID and the eventTimestamp arguments, on every table
state (even one containing an event with ID 0 or timestamp 0), so
evaluation falls through to the later selectors; and with no usable
selector getEvent yields the sentinel `none`, which no `some`-wrapped
match list (in particular not the empty one) equals. -/
theorem c9_getEvent_zero_selector (search : String → String → Bool)
    (st : Schedule) :
    (∀ (tsOpt : Option Int) (rOpt : Option String),
      getEvent search (some 0) tsOpt rOpt st =
        getEvent search none tsOpt rOpt st) ∧
    (∀ (idOpt : Option Int) (rOpt : Option String),
      getEvent search idOpt (some 0) rOpt st =
        getEvent search idOpt none rOpt st) ∧
    (∀ l : List (Int × List String × Int),
      getEvent search none none none st ≠ some l) := by
  refine ⟨?_, ?_, ?_⟩
  · intro tsOpt rOpt
    simp [getEvent, optIntTruthy]
  · intro idOpt rOpt
    by_cases h : optIntTruthy idOpt = true ∧ idOpt.getD 0 ∈ st.eventSchedule2
    · rw [getEvent, if_pos h, getEvent, if_pos h]
    · rw [getEvent, if_neg h, getEvent, if_neg h]
      simp [optIntTruthy]
  · intro l
    simp [getEvent, optIntTruthy, optStrTruthy]
